import Mathlib

/-!
# Verification of the predicate-based ABI coder registry

A shallow embedding of `eth_abi/registry.py`.  Python objects carrying
identity are modelled as values tagged with an allocation id (`objId`);
Python dict-key equality (`__eq__`/`__hash__`) is modelled by `Pred.pyEq`,
and the `is` operator by comparison of `objId`s.  Mutating methods are
embedded as functions returning a pair of the call's result (`Except err
Unit`, an exception or normal return) and the state of the object after the
call, so that partial mutation before an exception is representable.
-/

namespace EthAbi

/-- The grammar collaborator's parse error (`exceptions.ParseError`). -/
structure ParseError where
  msg : String
  deriving Repr, DecidableEq, Inhabited

/-- The structured type produced by the grammar collaborator
(`grammar.BasicType` / `grammar.TupleType`): a basic type has a base name,
an optional numeric sub-qualifier and an optional array-dimension list; a
tuple type has a list of component types. -/
inductive AbiType where
  | basic (base : String) (sub : Option Nat) (arrlist : Option (List (Option Nat)))
  | tupleT (components : List AbiType)

/-- The grammar collaborator's `parse` entry point, kept abstract: any
function from type strings to a structured type or a parse error. -/
def Parse : Type := String → Except ParseError AbiType

/-- The structural data of a predicate: the `Equals` and `BaseEquals`
`Predicate` subclasses (whose `__eq__` compares type and slot tuple), and
`custom` for a plain Python callable used as a lookup (such as
`has_arrlist` / `is_tuple_type` or a user lambda), which carries its repr
string and its evaluation function and compares by identity only. -/
inductive PredData where
  | equals (value : String)
  | baseEquals (base : String) (withSub : Option Bool)
  | custom (reprStr : String) (fn : String → Bool)

/-- A predicate object: an object identity tag plus the structural data. -/
structure Pred where
  objId : Nat
  data : PredData

/-- Python `==` between two predicate objects, as used by the dict keyed
on predicates: `Predicate.__eq__` compares type and slot tuple; plain
callables compare by identity. -/
def Pred.pyEq (p q : Pred) : Bool :=
  match p.data, q.data with
  | .equals a, .equals b => a == b
  | .baseEquals a s, .baseEquals b t => a == b && s == t
  | .custom _ _, .custom _ _ => p.objId == q.objId
  | _, _ => false

/-- `BaseEquals.__call__` from the source: parse the queried string;
unparsable strings do not match; a tuple type does not match; an array
dimension list does not match; the three-valued `with_sub` gate; finally
compare the base name. -/
def baseEqualsCall (parse : Parse) (base : String) (withSub : Option Bool)
    (typeStr : String) : Bool :=
  match parse typeStr with
  | .error _ => false
  | .ok abiType =>
    match abiType with
    | .basic b sub arrlist =>
      if arrlist.isSome then false
      else
        match withSub with
        | none => b == base
        | some true => if sub.isNone then false else b == base
        | some false => if sub.isSome then false else b == base
    | .tupleT _ => false

/-- Evaluation of a predicate object on a type string (`predicate(type_str)`). -/
def Pred.eval (parse : Parse) (p : Pred) (typeStr : String) : Bool :=
  match p.data with
  | .equals v => v == typeStr
  | .baseEquals base withSub => baseEqualsCall parse base withSub typeStr
  | .custom _ fn => fn typeStr

/-- `repr(predicate)`: `Predicate.__repr__` formats `<{type} {str}>`; a
plain callable carries its own repr string. -/
def Pred.reprStr (p : Pred) : String :=
  match p.data with
  | .equals v => "<Equals (== '" ++ v ++ "')>"
  | .baseEquals b ws =>
    "<BaseEquals (base == '" ++ b ++ "'" ++
      (match ws with
       | none => ""
       | some true => " and sub is not None"
       | some false => " and sub is None") ++ ")>"
  | .custom r _ => r

/-- A registered coder value: a plain conversion callable (identified by
an id) or a `BaseCoder` subclass (factory type, identified by an id). -/
inductive CoderVal where
  | direct (fnId : Nat)
  | factory (facId : Nat)
  deriving Repr, DecidableEq

/-- The error raised by `PredicateMapping.find`: a `ValueError` whose
message is either the no-match or the ambiguous-match format. -/
inductive FindError where
  | noMatch (typeStr name : String)
  | ambiguous (typeStr name : String) (preds : List Pred)

/-- The message (`e.args[0]`) of a `find` error, following the two format
strings in the source. -/
def FindError.msg : FindError → String
  | .noMatch t name => "No matching entries for '" ++ t ++ "' in " ++ name
  | .ambiguous t name preds =>
    "Multiple matching entries for '" ++ t ++ "' in " ++ name ++ ": " ++
      String.intercalate ", " (preds.map Pred.reprStr)

/-- Whether a `find` result is the ambiguous-match error. -/
def isAmbiguousResult : Except FindError CoderVal → Bool
  | .error (.ambiguous _ _ _) => true
  | _ => false

/-- Errors raised by `PredicateMapping.add`. -/
inductive AddErr where
  | duplicatePredicate
  | duplicateLabel
  deriving Repr, DecidableEq

/-- Errors raised by the removal methods: `remove_by_equality`'s KeyError,
`remove_by_label`'s KeyError, and the uncaught KeyError from deleting a
dangling label's predicate from the primary index. -/
inductive RemoveErr where
  | notFound
  | labelNotFound
  | valuesKeyError
  deriving Repr, DecidableEq

/-- `PredicateMapping`: the insertion-ordered primary dict from predicate
objects to coder values and the secondary dict from labels to predicate
objects, plus the name used in error messages. -/
structure PredicateMapping where
  name : String
  values : List (Pred × CoderVal)
  labeledPredicates : List (String × Pred)

/-- `PredicateMapping.add`: reject a predicate equal (`pyEq`) to a stored
one; with a label, reject a duplicate label; otherwise insert the label
binding and then the value binding.  Both checks precede both mutations,
so a failing call returns the unchanged state. -/
def PredicateMapping.add (m : PredicateMapping) (p : Pred) (v : CoderVal)
    (label : Option String) : Except AddErr Unit × PredicateMapping :=
  if m.values.any (fun e => e.1.pyEq p) then
    (.error .duplicatePredicate, m)
  else
    match label with
    | some l =>
      if m.labeledPredicates.any (fun e => e.1 == l) then
        (.error .duplicateLabel, m)
      else
        (.ok (),
          { m with
              labeledPredicates := m.labeledPredicates ++ [(l, p)],
              values := m.values ++ [(p, v)] })
    | none => (.ok (), { m with values := m.values ++ [(p, v)] })

/-- `PredicateMapping.find`: evaluate every stored predicate on the type
string in insertion order; zero matches raise the no-match `ValueError`,
two or more raise the ambiguous `ValueError` naming every matching
predicate, one returns its value. -/
def PredicateMapping.find (m : PredicateMapping) (parse : Parse)
    (typeStr : String) : Except FindError CoderVal :=
  let results := m.values.filter (fun e => e.1.eval parse typeStr)
  match results with
  | [] => .error (.noMatch typeStr m.name)
  | [(_, v)] => .ok v
  | _ => .error (.ambiguous typeStr m.name (results.map Prod.fst))

/-- `PredicateMapping.remove_by_equality`: delete the entry whose key is
`pyEq`-equal to `predicate` from the primary dict (KeyError if absent);
then look for a label whose stored predicate `is` (object identity) the
*argument* and delete it, silently skipping when none is found. -/
def PredicateMapping.removeByEquality (m : PredicateMapping) (p : Pred) :
    Except RemoveErr Unit × PredicateMapping :=
  if m.values.any (fun e => e.1.pyEq p) then
    let vs := m.values.eraseP (fun e => e.1.pyEq p)
    match m.labeledPredicates.find? (fun e => e.2.objId == p.objId) with
    | some (l, _) =>
      (.ok (),
        { m with
            values := vs,
            labeledPredicates := m.labeledPredicates.eraseP (fun e => e.1 == l) })
    | none => (.ok (), { m with values := vs })
  else
    (.error .notFound, m)

/-- `PredicateMapping.remove_by_label`: look the label up in the secondary
dict (KeyError if absent), delete the label, then delete the bound
predicate's entry from the primary dict (an uncaught KeyError if the label
was dangling, with the label already deleted). -/
def PredicateMapping.removeByLabel (m : PredicateMapping) (label : String) :
    Except RemoveErr Unit × PredicateMapping :=
  match m.labeledPredicates.find? (fun e => e.1 == label) with
  | none => (.error .labelNotFound, m)
  | some (_, p) =>
    let m1 : PredicateMapping :=
      { m with labeledPredicates := m.labeledPredicates.eraseP (fun e => e.1 == label) }
    if m1.values.any (fun e => e.1.pyEq p) then
      (.ok (), { m1 with values := m1.values.eraseP (fun e => e.1.pyEq p) })
    else
      (.error .valuesKeyError, m1)

/-- Whether `needle` occurs as a contiguous sublist of `hay`. -/
def subList (needle hay : List Char) : Bool :=
  needle.isPrefixOf hay ||
    match hay with
    | [] => false
    | _ :: t => subList needle t

/-- Python's `needle in hay` substring test on strings. -/
def containsSub (hay needle : String) : Bool :=
  subList needle.toList hay.toList

/-- A resolved coder as returned by `_get_coder`: the plain callable
itself, or an instance constructed by `coder.from_type_str` — each
construction yields a distinct object, tagged with the allocation counter
value `allocId` current at construction time. -/
inductive Resolved where
  | direct (fnId : Nat)
  | instanceOf (facId : Nat) (allocId : Nat)
  deriving Repr, DecidableEq

/-- An error escaping `_get_coder`: the re-raised `find` error or a
`ParseError` from the diagnostic re-parse. -/
inductive GetErr where
  | findErr (e : FindError)
  | parseErr (e : ParseError)

/-- `ABIRegistry._get_coder`: call `find`; on a `ValueError` whose message
contains the substring `No matching`, re-run the type string through the
grammar parser (a `ParseError` from it supersedes the original error,
otherwise the original error is re-raised); on success return a plain
callable as is, or construct an instance from a factory type.  Returns the
result, the allocation counter after the call, and how many times the
grammar parser was invoked by `_get_coder` itself.

The factory construction `coder.from_type_str(type_str, self)` is a
collaborator outside this core; modelled from the spec: it builds a fresh
coder instance, represented by a fresh allocation id. -/
def getCoder (parse : Parse) (m : PredicateMapping) (typeStr : String)
    (alloc : Nat) : Except GetErr Resolved × Nat × Nat :=
  match m.find parse typeStr with
  | .error e =>
    if containsSub e.msg "No matching" then
      match parse typeStr with
      | .error pe => (.error (.parseErr pe), alloc, 1)
      | .ok _ => (.error (.findErr e), alloc, 1)
    else
      (.error (.findErr e), alloc, 0)
  | .ok coder =>
    match coder with
    | .direct fnId => (.ok (.direct fnId), alloc, 0)
    | .factory facId => (.ok (.instanceOf facId (alloc)), alloc + 1, 0)

/-- A `lookup` argument: a plain string, a callable predicate object, or
any other value (rejected with a `TypeError`). -/
inductive Lookup where
  | str (s : String)
  | pred (p : Pred)
  | other

/-- An error escaping a registration or unregistration call. -/
inductive RegErr where
  | addErr (e : AddErr)
  | removeErr (e : RemoveErr)
  | typeErr
  deriving Repr, DecidableEq

/-- `ABIRegistry`: the two predicate mappings, the two `lru_cache` memo
tables of `get_encoder` / `get_decoder`, and the allocation counter
providing fresh object identities. -/
structure ABIRegistry where
  encoders : PredicateMapping
  decoders : PredicateMapping
  encoderCache : List (String × Resolved)
  decoderCache : List (String × Resolved)
  nextAlloc : Nat

/-- `ABIRegistry._register_coder` acting on a mapping: a callable lookup
is added directly with the given label; a string lookup is wrapped in a
fresh `Equals` object and the string itself is passed as the label (the
`label` argument is not used on this path); anything else raises a
`TypeError`.  Returns the result, the new mapping and the new allocation
counter. -/
def registerCoder (m : PredicateMapping) (lookup : Lookup) (coder : CoderVal)
    (label : Option String) (alloc : Nat) :
    Except RegErr Unit × PredicateMapping × Nat :=
  match lookup with
  | .pred p =>
    let (res, m1) := m.add p coder label
    (res.mapError .addErr, m1, alloc)
  | .str s =>
    let (res, m1) := m.add ⟨alloc, .equals s⟩ coder (some s)
    (res.mapError .addErr, m1, alloc + 1)
  | .other => (.error .typeErr, m, alloc)

/-- `ABIRegistry._unregister_coder` acting on a mapping: a callable is
removed by equality, a string by label, anything else raises a
`TypeError`. -/
def unregisterCoder (m : PredicateMapping) (lookupOrLabel : Lookup) :
    Except RegErr Unit × PredicateMapping :=
  match lookupOrLabel with
  | .pred p =>
    let (res, m1) := m.removeByEquality p
    (res.mapError .removeErr, m1)
  | .str s =>
    let (res, m1) := m.removeByLabel s
    (res.mapError .removeErr, m1)
  | .other => (.error .typeErr, m)

/-- `ABIRegistry.register_encoder`: the `_clear_encoder_cache` decorator
clears the `get_encoder` cache before the wrapped method runs, then the
encoder mapping is updated through `_register_coder`. -/
def ABIRegistry.registerEncoder (r : ABIRegistry) (lookup : Lookup)
    (coder : CoderVal) (label : Option String) :
    Except RegErr Unit × ABIRegistry :=
  let r0 := { r with encoderCache := [] }
  let (res, m1, a1) := registerCoder r0.encoders lookup coder label r0.nextAlloc
  (res, { r0 with encoders := m1, nextAlloc := a1 })

/-- `ABIRegistry.register_decoder`: clears the `get_decoder` cache, then
updates the decoder mapping. -/
def ABIRegistry.registerDecoder (r : ABIRegistry) (lookup : Lookup)
    (coder : CoderVal) (label : Option String) :
    Except RegErr Unit × ABIRegistry :=
  let r0 := { r with decoderCache := [] }
  let (res, m1, a1) := registerCoder r0.decoders lookup coder label r0.nextAlloc
  (res, { r0 with decoders := m1, nextAlloc := a1 })

/-- `ABIRegistry.unregister_encoder`: clears the `get_encoder` cache, then
removes from the encoder mapping. -/
def ABIRegistry.unregisterEncoder (r : ABIRegistry) (lookupOrLabel : Lookup) :
    Except RegErr Unit × ABIRegistry :=
  let r0 := { r with encoderCache := [] }
  let (res, m1) := unregisterCoder r0.encoders lookupOrLabel
  (res, { r0 with encoders := m1 })

/-- `ABIRegistry.unregister_decoder`: clears the `get_decoder` cache, then
removes from the decoder mapping. -/
def ABIRegistry.unregisterDecoder (r : ABIRegistry) (lookupOrLabel : Lookup) :
    Except RegErr Unit × ABIRegistry :=
  let r0 := { r with decoderCache := [] }
  let (res, m1) := unregisterCoder r0.decoders lookupOrLabel
  (res, { r0 with decoders := m1 })

/-- `ABIRegistry.register`: register the encoder side, then — only if it
returned normally — the decoder side; an exception from either side
propagates, leaving whatever mutation already happened in place. -/
def ABIRegistry.register (r : ABIRegistry) (lookup : Lookup)
    (enc dec : CoderVal) (label : Option String) :
    Except RegErr Unit × ABIRegistry :=
  match r.registerEncoder lookup enc label with
  | (.ok _, r1) => r1.registerDecoder lookup dec label
  | (.error e, r1) => (.error e, r1)

/-- `ABIRegistry.unregister`: unregister the encoder side by label, then
the decoder side. -/
def ABIRegistry.unregister (r : ABIRegistry) (label : String) :
    Except RegErr Unit × ABIRegistry :=
  match r.unregisterEncoder (.str label) with
  | (.ok _, r1) => r1.unregisterDecoder (.str label)
  | (.error e, r1) => (.error e, r1)

/-- `ABIRegistry.get_encoder` under `functools.lru_cache`: a cache hit
returns the stored object with no resolution work; a miss runs
`_get_coder` — counted as one resolution — and caches the result only on
success.  Returns the result, the registry after the call, and the number
of `_get_coder` resolutions performed. -/
def ABIRegistry.getEncoder (r : ABIRegistry) (parse : Parse)
    (typeStr : String) : Except GetErr Resolved × ABIRegistry × Nat :=
  match r.encoderCache.find? (fun e => e.1 == typeStr) with
  | some (_, v) => (.ok v, r, 0)
  | none =>
    match getCoder parse r.encoders typeStr r.nextAlloc with
    | (.ok v, a1, _) =>
      (.ok v,
        { r with encoderCache := r.encoderCache ++ [(typeStr, v)], nextAlloc := a1 }, 1)
    | (.error e, a1, _) => (.error e, { r with nextAlloc := a1 }, 1)

/-- `ABIRegistry.get_decoder` under `functools.lru_cache`, mirroring
`get_encoder`. -/
def ABIRegistry.getDecoder (r : ABIRegistry) (parse : Parse)
    (typeStr : String) : Except GetErr Resolved × ABIRegistry × Nat :=
  match r.decoderCache.find? (fun e => e.1 == typeStr) with
  | some (_, v) => (.ok v, r, 0)
  | none =>
    match getCoder parse r.decoders typeStr r.nextAlloc with
    | (.ok v, a1, _) =>
      (.ok v,
        { r with decoderCache := r.decoderCache ++ [(typeStr, v)], nextAlloc := a1 }, 1)
    | (.error e, a1, _) => (.error e, { r with nextAlloc := a1 }, 1)

/-! ## Concrete states used as witnesses and counterexamples -/

/-- A mapping holding one `Equals "uint"` predicate (object id 0) labeled
`uint`, as `add` would build it. -/
def mUintLabeled : PredicateMapping :=
  ⟨"encoder registry", [(⟨0, .equals "uint"⟩, .direct 3)], [("uint", ⟨0, .equals "uint"⟩)]⟩

/-- A mapping holding one `Equals "uint"` predicate with no label. -/
def mUintPlain : PredicateMapping :=
  ⟨"encoder registry", [(⟨0, .equals "uint"⟩, .direct 3)], []⟩

/-- A parse function that rejects every string, usable wherever only
unparsable inputs are exercised. -/
def parseNone : Parse := fun _ => .error ⟨"parse error"⟩

/-! ## Theorems -/

/-- C1: for every `PredicateMapping` state and type string, `find` raises
the no-match error iff zero stored predicates accept the string, raises
the ambiguous-match error naming every matching predicate iff two or more
accept it, and otherwise returns the value mapped to the unique matching
predicate. -/
theorem find_match_classification (parse : Parse) (m : PredicateMapping) (t : String) :
    (m.find parse t = .error (.noMatch t m.name) ↔
      (m.values.filter (fun e => e.1.eval parse t)).length = 0) ∧
    (m.find parse t = .error (.ambiguous t m.name
        ((m.values.filter (fun e => e.1.eval parse t)).map Prod.fst)) ↔
      2 ≤ (m.values.filter (fun e => e.1.eval parse t)).length) ∧
    (∀ v, m.find parse t = .ok v ↔
      (m.values.filter (fun e => e.1.eval parse t)).map Prod.snd = [v]) := by
  rcases hr : m.values.filter (fun e => e.1.eval parse t) with
    _ | ⟨⟨p1, v1⟩, _ | ⟨⟨p2, v2⟩, rest⟩⟩
  · have hfind : m.find parse t = .error (.noMatch t m.name) := by
      unfold PredicateMapping.find; rw [hr]
    rw [hfind, hr]
    simp
  · have hfind : m.find parse t = .ok v1 := by
      unfold PredicateMapping.find; rw [hr]
    rw [hfind, hr]
    simp [eq_comm]
  · have hfind : m.find parse t = .error (.ambiguous t m.name
        (((p1, v1) :: (p2, v2) :: rest).map Prod.fst)) := by
      unfold PredicateMapping.find; rw [hr]
    rw [hfind, hr]
    simp

/-- C8: an `add` call that fails (duplicate predicate or duplicate label)
modifies neither index; a successful call inserts into both indices, with
no partially-inserted state observable after the call. -/
theorem add_atomic (m : PredicateMapping) (p : Pred) (v : CoderVal) (label : Option String) :
    ((∃ e, (m.add p v label).1 = .error e) → (m.add p v label).2 = m) ∧
    ((m.add p v label).1 = .ok () → (m.add p v label).2 =
      { m with
          values := m.values ++ [(p, v)],
          labeledPredicates := m.labeledPredicates ++
            (match label with | some l => [(l, p)] | none => []) }) := by
  by_cases h1 : m.values.any (fun e => e.1.pyEq p)
  · simp [PredicateMapping.add, h1]
  · cases label with
    | none => simp [PredicateMapping.add, h1]
    | some l =>
      by_cases h2 : m.labeledPredicates.any (fun e => e.1 == l)
      · simp [PredicateMapping.add, h1, h2]
      · simp [PredicateMapping.add, h1, h2]

/-- Witness for `add_atomic`: a duplicate-predicate failure leaves the
state unchanged, and a successful add appends to both indices. -/
theorem add_atomic_witness :
    (mUintPlain.add ⟨1, .equals "uint"⟩ (.direct 1) none).2 = mUintPlain ∧
    (mUintPlain.add ⟨1, .equals "int"⟩ (.direct 1) none).2 =
      { mUintPlain with
          values := mUintPlain.values ++ [(⟨1, .equals "int"⟩, .direct 1)],
          labeledPredicates := mUintPlain.labeledPredicates ++ [] } :=
  ⟨(add_atomic mUintPlain ⟨1, .equals "uint"⟩ (.direct 1) none).1 ⟨.duplicatePredicate, rfl⟩,
   (add_atomic mUintPlain ⟨1, .equals "int"⟩ (.direct 1) none).2 rfl⟩

/-- C4 (failing input): on a mapping holding `Equals "uint"` labeled
`uint`, `remove_by_equality` applied to an equal but not identical
`Equals "uint"` object removes the primary entry yet leaves the label in
place, because the label search compares by object identity (`is`)
against the argument: afterwards the label refers to a predicate absent
from the primary index. -/
theorem removeByEquality_equal_not_identical_leaves_label :
    (mUintLabeled.removeByEquality ⟨1, .equals "uint"⟩).1 = .ok () ∧
    (mUintLabeled.removeByEquality ⟨1, .equals "uint"⟩).2.values = [] ∧
    (mUintLabeled.removeByEquality ⟨1, .equals "uint"⟩).2.labeledPredicates =
      [("uint", ⟨0, .equals "uint"⟩)] :=
  ⟨rfl, rfl, rfl⟩

/-- C9: `BaseEquals(base, with_sub)` applied to a type string returns
`true` iff the string parses to a basic type with no array-dimension
list whose base name equals `base` and whose sub-qualifier presence
matches `with_sub`; unparsable strings yield `false`. -/
theorem baseEquals_call_spec (parse : Parse) (base : String) (ws : Option Bool) (t : String) :
    baseEqualsCall parse base ws t = true ↔
      ∃ b sub arrlist, parse t = .ok (.basic b sub arrlist) ∧ b = base ∧ arrlist = none ∧
        (ws = some true → sub ≠ none) ∧ (ws = some false → sub = none) := by
  unfold baseEqualsCall
  cases hp : parse t with
  | error e => simp
  | ok at1 =>
    cases at1 with
    | tupleT cs => simp
    | basic b sub arrlist =>
      cases arrlist with
      | some a => simp
      | none =>
        cases ws with
        | none => simp
        | some ws' =>
          cases ws' with
          | false =>
            cases sub with
            | none =>
              simp
              constructor
              · intro h; exact ⟨b, none, none, ⟨rfl, rfl, rfl⟩, h, rfl, rfl⟩
              · rintro ⟨b1, sub1, arr1, ⟨hb, hs, ha⟩, h2, h3, h4⟩
                subst hb; exact h2
            | some sv => simp
          | true =>
            cases sub with
            | none => simp
            | some sv =>
              simp
              constructor
              · intro h; exact ⟨b, some sv, none, ⟨rfl, rfl, rfl⟩, h, rfl, by simp⟩
              · rintro ⟨b1, sub1, arr1, ⟨hb, hs, ha⟩, h2, h3, h4⟩
                subst hb; exact h2

/-! ## Substring facts about the find error messages -/

/-- A sublist occurrence follows from a prefix occurrence. -/
theorem subList_of_isPrefixOf {n h : List Char} (hp : n.isPrefixOf h = true) :
    subList n h = true := by
  unfold subList
  rw [hp]
  simp

/-- A list is a `isPrefixOf`-prefix of itself followed by anything. -/
theorem isPrefixOf_append_left (l t : List Char) : l.isPrefixOf (l ++ t) = true := by
  rw [List.isPrefixOf_iff_prefix]
  exact List.prefix_append l t

/-- `String.toList` distributes over append. -/
theorem strToList_append (a b : String) : (a ++ b).toList = a.toList ++ b.toList :=
  String.data_append a b

/-- Every no-match message starts with the literal `No matching`, so the
substring test in `_get_coder` accepts it. -/
theorem noMatch_msg_contains (t name : String) :
    containsSub (FindError.msg (.noMatch t name)) "No matching" = true := by
  unfold containsSub
  apply subList_of_isPrefixOf
  have h1 : (FindError.msg (.noMatch t name)).toList =
      "No matching".toList ++
        (" entries for '".toList ++ (t.toList ++ ("' in ".toList ++ name.toList))) := by
    show (("No matching entries for '" ++ t ++ "' in ") ++ name).toList = _
    have hlit : ("No matching entries for '" : String).toList =
        "No matching".toList ++ " entries for '".toList := rfl
    simp [strToList_append, hlit]
  rw [h1]
  exact isPrefixOf_append_left _ _

/-- C2 (amended): after a `find` failure, `_get_coder` re-runs the grammar
parser exactly when the error's message contains the substring
`No matching`: always for a no-match error (whose message starts with that
text) — a parse failure then supersedes the original error and a parse
success re-raises it — and also for an ambiguous-match error whose
formatted message happens to contain that substring; on a successful
`find` no re-parse happens. -/
theorem getCoder_reparse_policy (parse : Parse) (m : PredicateMapping)
    (t : String) (alloc : Nat) :
    (∀ e, m.find parse t = .error e →
       (containsSub e.msg "No matching" = true →
          getCoder parse m t alloc =
            ((match parse t with
              | .error pe => Except.error (.parseErr pe)
              | .ok _ => Except.error (.findErr e)), alloc, 1)) ∧
       (containsSub e.msg "No matching" = false →
          getCoder parse m t alloc = (.error (.findErr e), alloc, 0))) ∧
    (∀ t' n', containsSub (FindError.msg (.noMatch t' n')) "No matching" = true) ∧
    (∀ v, m.find parse t = .ok v → (getCoder parse m t alloc).2.2 = 0) := by
  refine ⟨?_, fun t' n' => noMatch_msg_contains t' n', ?_⟩
  · intro e he
    constructor
    · intro hc
      unfold getCoder
      rw [he]
      simp [hc]
      rcases parse t with pe | a <;> simp
    · intro hc
      unfold getCoder
      rw [he]
      simp [hc]
  · intro v hv
    unfold getCoder
    rw [hv]
    cases v <;> simp

/-- Witness for `getCoder_reparse_policy`: on a mapping with no matching
predicate the no-match error's message contains `No matching` and the
re-parse is performed — here the parser rejects the string, so the
malformed-type-string error supersedes the no-match error. -/
theorem getCoder_reparse_policy_witness :
    getCoder parseNone ⟨"encoder registry", [], []⟩ "notatype" 0 =
      (.error (.parseErr ⟨"parse error"⟩), 0, 1) :=
  (((getCoder_reparse_policy parseNone ⟨"encoder registry", [], []⟩ "notatype" 0).1
      (.noMatch "notatype" "encoder registry") rfl).1
    (noMatch_msg_contains "notatype" "encoder registry"))

/-- A mapping holding two always-true plain callables, which makes every
type string ambiguous. -/
def mAmb : PredicateMapping :=
  ⟨"encoder registry",
   [(⟨0, .custom "<function p1 at 0x01>" (fun _ => true)⟩, .direct 0),
    (⟨1, .custom "<function p2 at 0x02>" (fun _ => true)⟩, .direct 1)], []⟩

/-- C2 (counterexample): for the type string `No matching` on a mapping
where two predicates match, `find` raises the ambiguous-match error, yet
`_get_coder` still re-runs the grammar parser (the ambiguous message
contains the queried string, hence the substring `No matching`), and a
parse failure then replaces the ambiguous error with the
malformed-type-string error — contradicting the claim that the re-parse
is never performed for ambiguous-match errors. -/
theorem getCoder_reparses_on_ambiguous_cex :
    isAmbiguousResult (mAmb.find parseNone "No matching") = true ∧
    (getCoder parseNone mAmb "No matching" 0).2.2 = 1 ∧
    (getCoder parseNone mAmb "No matching" 0).1 = .error (.parseErr ⟨"parse error"⟩) :=
  ⟨rfl, rfl, rfl⟩

/-! ## Helper lemmas shared by the registry-level theorems -/

/-- Python `==` on predicate objects is reflexive. -/
theorem pyEq_refl (p : Pred) : p.pyEq p = true := by
  rcases p with ⟨i, d⟩
  cases d <;> simp [Pred.pyEq]

/-- An `add` call returns normally exactly when no stored predicate is
equal to the new one and, if a label is passed, the label is unbound. -/
theorem add_ok_iff (m : PredicateMapping) (p : Pred) (v : CoderVal)
    (label : Option String) :
    (m.add p v label).1 = .ok () ↔
      m.values.any (fun e => e.1.pyEq p) = false ∧
      ∀ l, label = some l → m.labeledPredicates.any (fun e => e.1 == l) = false := by
  by_cases h1 : m.values.any (fun e => e.1.pyEq p)
  · simp [PredicateMapping.add, h1]
  · cases label with
    | none => simp [PredicateMapping.add, h1]
    | some l =>
      by_cases h2 : m.labeledPredicates.any (fun e => e.1 == l)
      · simp [PredicateMapping.add, h1, h2]
        obtain ⟨x, hx, hxl⟩ := List.any_eq_true.mp h2
        rcases x with ⟨a, b⟩
        simp only [beq_iff_eq] at hxl
        subst hxl
        exact ⟨b, hx⟩
      · simp [PredicateMapping.add, h1, h2]
        intro a b hmem heq
        exact absurd (List.any_eq_true.mpr ⟨(a, b), hmem, by simp [heq]⟩) h2

/-- An `add` call that raises leaves the mapping unchanged. -/
theorem add_error_state (m : PredicateMapping) (p : Pred) (v : CoderVal)
    (label : Option String) (e : AddErr) (h : (m.add p v label).1 = .error e) :
    (m.add p v label).2 = m := by
  by_cases h1 : m.values.any (fun e => e.1.pyEq p)
  · simp [PredicateMapping.add, h1]
  · cases label with
    | none => simp [PredicateMapping.add, h1] at h
    | some l =>
      by_cases h2 : m.labeledPredicates.any (fun e => e.1 == l)
      · simp [PredicateMapping.add, h1, h2]
      · simp [PredicateMapping.add, h1, h2] at h

/-- A successful `add` appends the new entry to the primary index and the
label binding (if any) to the secondary index. -/
theorem add_ok_state (m : PredicateMapping) (p : Pred) (v : CoderVal)
    (label : Option String) (h : (m.add p v label).1 = .ok ()) :
    (m.add p v label).2 =
      { m with
          values := m.values ++ [(p, v)],
          labeledPredicates := m.labeledPredicates ++
            (match label with | some l => [(l, p)] | none => []) } := by
  by_cases h1 : m.values.any (fun e => e.1.pyEq p)
  · simp [PredicateMapping.add, h1] at h
  · cases label with
    | none => simp [PredicateMapping.add, h1]
    | some l =>
      by_cases h2 : m.labeledPredicates.any (fun e => e.1 == l)
      · simp [PredicateMapping.add, h1, h2] at h
      · simp [PredicateMapping.add, h1, h2]

/-- After a successful labeled `add`, removing by that label succeeds and
restores the original mapping exactly. -/
theorem add_removeByLabel_roundtrip (m : PredicateMapping) (p : Pred)
    (v : CoderVal) (l : String) (h : (m.add p v (some l)).1 = .ok ()) :
    ((m.add p v (some l)).2.removeByLabel l).1 = .ok () ∧
    ((m.add p v (some l)).2.removeByLabel l).2 = m := by
  obtain ⟨hv, hl⟩ := (add_ok_iff m p v (some l)).mp h
  have hlab : m.labeledPredicates.any (fun e => e.1 == l) = false := hl l rfl
  have hlab' : ∀ x ∈ m.labeledPredicates, ¬(x.1 == l) = true :=
    List.any_eq_false.mp hlab
  have hv' : ∀ x ∈ m.values, ¬(x.1.pyEq p) = true := List.any_eq_false.mp hv
  have hstate : (m.add p v (some l)).2 =
      ⟨m.name, m.values ++ [(p, v)], m.labeledPredicates ++ [(l, p)]⟩ :=
    add_ok_state m p v (some l) h
  have hfind : (m.labeledPredicates ++ [(l, p)]).find? (fun e => e.1 == l) =
      some (l, p) := by
    rw [List.find?_append, List.find?_eq_none.mpr hlab']
    simp [List.find?]
  have herase : (m.labeledPredicates ++ [(l, p)]).eraseP (fun e => e.1 == l) =
      m.labeledPredicates := by
    rw [List.eraseP_append_right _ hlab']
    simp [List.eraseP_cons]
  have hany : (m.values ++ [(p, v)]).any (fun e => e.1.pyEq p) = true := by
    simp [List.any_append, pyEq_refl]
  have heraseV : (m.values ++ [(p, v)]).eraseP (fun e => e.1.pyEq p) = m.values := by
    rw [List.eraseP_append_right _ hv']
    simp [List.eraseP_cons, pyEq_refl]
  have hrl : (⟨m.name, m.values ++ [(p, v)], m.labeledPredicates ++ [(l, p)]⟩ :
      PredicateMapping).removeByLabel l = (.ok (), m) := by
    unfold PredicateMapping.removeByLabel
    rw [hfind]
    simp [hany, herase, heraseV]
  rw [hstate, hrl]
  exact ⟨rfl, rfl⟩

/-- `Except.mapError` sends `ok` to `ok` and nothing else to `ok`. -/
theorem mapError_ok_iff {ε ε' α : Type} (f : ε → ε') (x : Except ε α) (u : α) :
    x.mapError f = .ok u ↔ x = .ok u := by
  cases x <;> simp [Except.mapError]

/-- `register_decoder` touches neither the encoder mapping nor the encoder
cache. -/
theorem registerDecoder_preserves_encoders (r : ABIRegistry) (lookup : Lookup)
    (coder : CoderVal) (label : Option String) :
    (r.registerDecoder lookup coder label).2.encoders = r.encoders ∧
    (r.registerDecoder lookup coder label).2.encoderCache = r.encoderCache :=
  ⟨rfl, rfl⟩

/-- `register_encoder` touches neither the decoder mapping nor the decoder
cache. -/
theorem registerEncoder_preserves_decoders (r : ABIRegistry) (lookup : Lookup)
    (coder : CoderVal) (label : Option String) :
    (r.registerEncoder lookup coder label).2.decoders = r.decoders ∧
    (r.registerEncoder lookup coder label).2.decoderCache = r.decoderCache :=
  ⟨rfl, rfl⟩

/-- A `_register_coder` call that raises leaves the target mapping
unchanged. -/
theorem registerCoder_error_state (m : PredicateMapping) (lookup : Lookup)
    (coder : CoderVal) (label : Option String) (alloc : Nat) (e : RegErr)
    (h : (registerCoder m lookup coder label alloc).1 = .error e) :
    (registerCoder m lookup coder label alloc).2.1 = m := by
  cases lookup with
  | pred p =>
    have h' : ((m.add p coder label).1).mapError RegErr.addErr = .error e := h
    show (m.add p coder label).2 = m
    cases hx : (m.add p coder label).1 with
    | ok u => rw [hx] at h'; simp [Except.mapError] at h'
    | error e0 => exact add_error_state m p coder label e0 hx
  | str s =>
    have h' : ((m.add ⟨alloc, .equals s⟩ coder (some s)).1).mapError RegErr.addErr =
        .error e := h
    show (m.add ⟨alloc, .equals s⟩ coder (some s)).2 = m
    cases hx : (m.add ⟨alloc, .equals s⟩ coder (some s)).1 with
    | ok u => rw [hx] at h'; simp [Except.mapError] at h'
    | error e0 => exact add_error_state m ⟨alloc, .equals s⟩ coder (some s) e0 hx
  | other => rfl

/-- C3 (amended): the cache-clearing decorators run before the wrapped
registration, so a `register_encoder` / `register_decoder` call whose
underlying `add` fails still clears the corresponding resolution cache;
the predicate mappings themselves and the other side's cache are left
unchanged.  (A later `get` therefore re-resolves instead of returning the
previously cached result.) -/
theorem register_failure_still_clears_cache (r : ABIRegistry) (lookup : Lookup)
    (coder : CoderVal) (label : Option String) :
    (∀ e, (r.registerEncoder lookup coder label).1 = .error e →
        (r.registerEncoder lookup coder label).2.encoders = r.encoders ∧
        (r.registerEncoder lookup coder label).2.encoderCache = [] ∧
        (r.registerEncoder lookup coder label).2.decoders = r.decoders ∧
        (r.registerEncoder lookup coder label).2.decoderCache = r.decoderCache) ∧
    (∀ e, (r.registerDecoder lookup coder label).1 = .error e →
        (r.registerDecoder lookup coder label).2.decoders = r.decoders ∧
        (r.registerDecoder lookup coder label).2.decoderCache = [] ∧
        (r.registerDecoder lookup coder label).2.encoders = r.encoders ∧
        (r.registerDecoder lookup coder label).2.encoderCache = r.encoderCache) := by
  constructor
  · intro e he
    have he' : (registerCoder r.encoders lookup coder label r.nextAlloc).1 = .error e := he
    refine ⟨?_, rfl, rfl, rfl⟩
    show (registerCoder r.encoders lookup coder label r.nextAlloc).2.1 = r.encoders
    exact registerCoder_error_state _ _ _ _ _ _ he'
  · intro e he
    have he' : (registerCoder r.decoders lookup coder label r.nextAlloc).1 = .error e := he
    refine ⟨?_, rfl, rfl, rfl⟩
    show (registerCoder r.decoders lookup coder label r.nextAlloc).2.1 = r.decoders
    exact registerCoder_error_state _ _ _ _ _ _ he'

/-- A registry holding one factory registration for `uint` in the encoder
mapping. -/
def rC3 : ABIRegistry :=
  { encoders := ⟨"encoder registry", [(⟨0, .equals "uint"⟩, .factory 5)],
      [("uint", ⟨0, .equals "uint"⟩)]⟩,
    decoders := ⟨"decoder registry", [], []⟩,
    encoderCache := [], decoderCache := [], nextAlloc := 1 }

/-- `rC3` after one successful (and cached) `get_encoder("uint")`. -/
def rC3a : ABIRegistry := (rC3.getEncoder parseNone "uint").2.1

/-- `rC3a` after a failed duplicate registration for `uint`. -/
def rC3b : ABIRegistry := (rC3a.registerEncoder (.str "uint") (.direct 9) none).2

/-- Witness for `register_failure_still_clears_cache` at the concrete
failed registration of `rC3a`. -/
theorem register_failure_still_clears_cache_witness :
    rC3b.encoders = rC3a.encoders ∧ rC3b.encoderCache = [] :=
  ⟨((register_failure_still_clears_cache rC3a (.str "uint") (.direct 9) none).1
      (.addErr .duplicatePredicate) rfl).1,
   ((register_failure_still_clears_cache rC3a (.str "uint") (.direct 9) none).1
      (.addErr .duplicatePredicate) rfl).2.1⟩

/-- C3 (counterexample): a cached `get_encoder("uint")` result is *not*
returned after a failed duplicate registration — the failed call cleared
the cache, so the next `get_encoder("uint")` re-resolves (one resolution
performed) and constructs a fresh factory instance distinct from the
previously cached one, contradicting the claim that a failed registration
leaves the cache intact. -/
theorem failed_registration_invalidates_cache_cex :
    (rC3.getEncoder parseNone "uint").1 = .ok (.instanceOf 5 1) ∧
    rC3a.encoderCache = [("uint", .instanceOf 5 1)] ∧
    (rC3a.registerEncoder (.str "uint") (.direct 9) none).1 =
      .error (.addErr .duplicatePredicate) ∧
    rC3b.encoderCache = [] ∧
    (rC3b.getEncoder parseNone "uint").2.2 = 1 ∧
    (rC3b.getEncoder parseNone "uint").1 = .ok (.instanceOf 5 3) ∧
    Resolved.instanceOf 5 3 ≠ .instanceOf 5 1 :=
  ⟨rfl, rfl, rfl, rfl, rfl, rfl, by decide⟩

/-- C5: two consecutive `get_encoder` calls with no intervening mutation
return the identical resolved value instance, and the second call performs
no resolution work at all (no predicate evaluation, grammar parsing or
factory construction — its resolution count is `0` and the registry,
including its allocation counter, is unchanged). -/
theorem getEncoder_cached_idempotent (r : ABIRegistry) (parse : Parse) (t : String)
    (v : Resolved) (r' : ABIRegistry) (n : Nat)
    (h : r.getEncoder parse t = (.ok v, r', n)) :
    r'.getEncoder parse t = (.ok v, r', 0) := by
  unfold ABIRegistry.getEncoder at h ⊢
  cases hf : r.encoderCache.find? (fun e => e.1 == t) with
  | some ev =>
    rcases ev with ⟨t0, v0⟩
    rw [hf] at h
    simp only [Prod.mk.injEq, Except.ok.injEq] at h
    obtain ⟨hv, hr, hn⟩ := h
    subst hv
    subst hr
    rw [hf]
  | none =>
    rw [hf] at h
    rcases hg : getCoder parse r.encoders t r.nextAlloc with ⟨res, a1, pc⟩
    rw [hg] at h
    cases res with
    | error e => simp at h
    | ok w =>
      simp only [Prod.mk.injEq, Except.ok.injEq] at h
      obtain ⟨hv, hr, hn⟩ := h
      subst hv
      subst hr
      rw [List.find?_append, hf]
      simp [List.find?]

/-- A registry holding one factory registration for `uint`, with an empty
cache. -/
def rC5 : ABIRegistry :=
  { encoders := ⟨"encoder registry", [(⟨0, .equals "uint"⟩, .factory 5)], []⟩,
    decoders := ⟨"decoder registry", [], []⟩,
    encoderCache := [], decoderCache := [], nextAlloc := 1 }

/-- Witness for `getEncoder_cached_idempotent` on `rC5`. -/
theorem getEncoder_cached_idempotent_witness :
    (rC5.getEncoder parseNone "uint").2.1.getEncoder parseNone "uint" =
      (.ok (.instanceOf 5 1), (rC5.getEncoder parseNone "uint").2.1, 0) :=
  getEncoder_cached_idempotent rC5 parseNone "uint" (.instanceOf 5 1)
    ((rC5.getEncoder parseNone "uint").2.1) 1 rfl

/-- C7: a joint `register` whose decoder-side registration fails after the
encoder-side registration succeeded propagates the decoder-side error and
leaves the encoder-side registration in place (the encoder mapping of the
final state is exactly the one produced by the successful encoder-side
registration). -/
theorem register_keeps_encoder_on_decoder_failure (r r1 : ABIRegistry)
    (lookup : Lookup) (enc dec : CoderVal) (label : Option String) (e : RegErr)
    (h1 : r.registerEncoder lookup enc label = (.ok (), r1))
    (h2 : (r1.registerDecoder lookup dec label).1 = .error e) :
    (r.register lookup enc dec label).1 = .error e ∧
    (r.register lookup enc dec label).2.encoders = r1.encoders := by
  unfold ABIRegistry.register
  rw [h1]
  exact ⟨h2, (registerDecoder_preserves_encoders r1 lookup dec label).1⟩

/-- A registry whose decoder mapping already holds `Equals "uint"` while
the encoder mapping does not: a joint registration under `"uint"` then
succeeds on the encoder side and fails on the decoder side. -/
def rC7 : ABIRegistry :=
  { encoders := ⟨"encoder registry", [], []⟩,
    decoders := ⟨"decoder registry", [(⟨0, .equals "uint"⟩, .direct 7)],
      [("uint", ⟨0, .equals "uint"⟩)]⟩,
    encoderCache := [], decoderCache := [], nextAlloc := 1 }

/-- Witness for `register_keeps_encoder_on_decoder_failure` on `rC7`. -/
theorem register_keeps_encoder_on_decoder_failure_witness :
    (rC7.register (.str "uint") (.direct 8) (.direct 9) none).1 =
      .error (.addErr .duplicatePredicate) ∧
    (rC7.register (.str "uint") (.direct 8) (.direct 9) none).2.encoders =
      (rC7.registerEncoder (.str "uint") (.direct 8) none).2.encoders :=
  register_keeps_encoder_on_decoder_failure rC7
    ((rC7.registerEncoder (.str "uint") (.direct 8) none).2)
    (.str "uint") (.direct 8) (.direct 9) none (.addErr .duplicatePredicate) rfl rfl

/-- A successful string-lookup `register_encoder` reduces to a successful
labeled `add` of a fresh `Equals` object on the encoder mapping. -/
theorem registerEncoder_str_ok (r : ABIRegistry) (s : String) (c : CoderVal)
    (label : Option String) (h : (r.registerEncoder (.str s) c label).1 = .ok ()) :
    (r.encoders.add ⟨r.nextAlloc, .equals s⟩ c (some s)).1 = .ok () ∧
    (r.registerEncoder (.str s) c label).2 =
      { r with
          encoderCache := [],
          encoders := (r.encoders.add ⟨r.nextAlloc, .equals s⟩ c (some s)).2,
          nextAlloc := r.nextAlloc + 1 } := by
  have h' : ((r.encoders.add ⟨r.nextAlloc, .equals s⟩ c (some s)).1).mapError
      RegErr.addErr = .ok () := h
  exact ⟨(mapError_ok_iff _ _ _).mp h', rfl⟩

/-- A successful string-lookup `register_decoder` reduces to a successful
labeled `add` of a fresh `Equals` object on the decoder mapping. -/
theorem registerDecoder_str_ok (r : ABIRegistry) (s : String) (c : CoderVal)
    (label : Option String) (h : (r.registerDecoder (.str s) c label).1 = .ok ()) :
    (r.decoders.add ⟨r.nextAlloc, .equals s⟩ c (some s)).1 = .ok () ∧
    (r.registerDecoder (.str s) c label).2 =
      { r with
          decoderCache := [],
          decoders := (r.decoders.add ⟨r.nextAlloc, .equals s⟩ c (some s)).2,
          nextAlloc := r.nextAlloc + 1 } := by
  have h' : ((r.decoders.add ⟨r.nextAlloc, .equals s⟩ c (some s)).1).mapError
      RegErr.addErr = .ok () := h
  exact ⟨(mapError_ok_iff _ _ _).mp h', rfl⟩

/-- `unregister_encoder` with a string argument clears the encoder cache
and removes by label from the encoder mapping. -/
theorem unregisterEncoder_str_eq (r : ABIRegistry) (s : String) :
    r.unregisterEncoder (.str s) =
      (((r.encoders.removeByLabel s).1).mapError RegErr.removeErr,
       { r with encoderCache := [], encoders := (r.encoders.removeByLabel s).2 }) := rfl

/-- `unregister_decoder` with a string argument clears the decoder cache
and removes by label from the decoder mapping. -/
theorem unregisterDecoder_str_eq (r : ABIRegistry) (s : String) :
    r.unregisterDecoder (.str s) =
      (((r.decoders.removeByLabel s).1).mapError RegErr.removeErr,
       { r with decoderCache := [], decoders := (r.decoders.removeByLabel s).2 }) := rfl

/-- C6: registering under a plain string lookup `s` (encoder side, decoder
side, or jointly, with no explicit label) stores an `Equals s` predicate
labeled `s`, so a subsequent `unregister_encoder s` / `unregister_decoder
s` succeeds and removes exactly that registration, restoring the affected
mapping to its previous state. -/
theorem register_string_roundtrip (r : ABIRegistry) (s : String) (enc dec : CoderVal) :
    ((r.registerEncoder (.str s) enc none).1 = .ok () →
      (s, (⟨r.nextAlloc, .equals s⟩ : Pred)) ∈
          (r.registerEncoder (.str s) enc none).2.encoders.labeledPredicates ∧
      ((r.registerEncoder (.str s) enc none).2.unregisterEncoder (.str s)).1 = .ok () ∧
      ((r.registerEncoder (.str s) enc none).2.unregisterEncoder (.str s)).2.encoders =
        r.encoders ∧
      ((r.registerEncoder (.str s) enc none).2.unregisterEncoder (.str s)).2.decoders =
        r.decoders) ∧
    ((r.registerDecoder (.str s) dec none).1 = .ok () →
      ((r.registerDecoder (.str s) dec none).2.unregisterDecoder (.str s)).1 = .ok () ∧
      ((r.registerDecoder (.str s) dec none).2.unregisterDecoder (.str s)).2.decoders =
        r.decoders ∧
      ((r.registerDecoder (.str s) dec none).2.unregisterDecoder (.str s)).2.encoders =
        r.encoders) ∧
    ((r.register (.str s) enc dec none).1 = .ok () →
      ((r.register (.str s) enc dec none).2.unregisterEncoder (.str s)).1 = .ok () ∧
      ((r.register (.str s) enc dec none).2.unregisterEncoder (.str s)).2.encoders =
        r.encoders ∧
      ((r.register (.str s) enc dec none).2.unregisterDecoder (.str s)).1 = .ok () ∧
      ((r.register (.str s) enc dec none).2.unregisterDecoder (.str s)).2.decoders =
        r.decoders) := by
  refine ⟨?_, ?_, ?_⟩
  · intro h
    obtain ⟨hadd, hstate⟩ := registerEncoder_str_ok r s enc none h
    obtain ⟨hrem1, hrem2⟩ :=
      add_removeByLabel_roundtrip r.encoders ⟨r.nextAlloc, .equals s⟩ enc s hadd
    refine ⟨?_, ?_, ?_, ?_⟩
    · rw [hstate, add_ok_state _ _ _ _ hadd]
      simp
    · rw [hstate, unregisterEncoder_str_eq]
      simp [hrem1, Except.mapError]
    · rw [hstate, unregisterEncoder_str_eq]
      simpa using hrem2
    · rw [hstate]
      rfl
  · intro h
    obtain ⟨hadd, hstate⟩ := registerDecoder_str_ok r s dec none h
    obtain ⟨hrem1, hrem2⟩ :=
      add_removeByLabel_roundtrip r.decoders ⟨r.nextAlloc, .equals s⟩ dec s hadd
    refine ⟨?_, ?_, ?_⟩
    · rw [hstate, unregisterDecoder_str_eq]
      simp [hrem1, Except.mapError]
    · rw [hstate, unregisterDecoder_str_eq]
      simpa using hrem2
    · rw [hstate]
      rfl
  · intro h
    rcases hE : r.registerEncoder (.str s) enc none with ⟨resE, r1⟩
    have hreg : r.register (.str s) enc dec none =
        (match (resE, r1) with
         | (.ok _, r1) => r1.registerDecoder (.str s) dec none
         | (.error e, r1) => ((.error e : Except RegErr Unit), r1)) := by
      unfold ABIRegistry.register
      rw [hE]
    cases resE with
    | error e0 =>
      rw [hreg] at h
      simp at h
    | ok u =>
      cases u
      rw [hreg] at h ⊢
      have hEok : (r.registerEncoder (.str s) enc none).1 = .ok () := by rw [hE]
      obtain ⟨haddE, hstateE⟩ := registerEncoder_str_ok r s enc none hEok
      have hr1 : r1 = { r with
          encoderCache := [],
          encoders := (r.encoders.add ⟨r.nextAlloc, .equals s⟩ enc (some s)).2,
          nextAlloc := r.nextAlloc + 1 } := by
        have : (r.registerEncoder (.str s) enc none).2 = r1 := by rw [hE]
        rw [← this, hstateE]
      have hDok : (r1.registerDecoder (.str s) dec none).1 = .ok () := h
      obtain ⟨haddD, hstateD⟩ := registerDecoder_str_ok r1 s dec none hDok
      obtain ⟨hremE1, hremE2⟩ :=
        add_removeByLabel_roundtrip r.encoders ⟨r.nextAlloc, .equals s⟩ enc s haddE
      have hr1dec : r1.decoders = r.decoders := by rw [hr1]
      have haddD' : (r.decoders.add ⟨r1.nextAlloc, .equals s⟩ dec (some s)).1 = .ok () := by
        rw [← hr1dec]; exact haddD
      obtain ⟨hremD1, hremD2⟩ :=
        add_removeByLabel_roundtrip r.decoders ⟨r1.nextAlloc, .equals s⟩ dec s haddD'
      rw [hstateD]
      have hencs : ((r1.registerDecoder (.str s) dec none).2).encoders = r1.encoders :=
        (registerDecoder_preserves_encoders r1 (.str s) dec none).1
      rw [hstateD] at hencs
      refine ⟨?_, ?_, ?_, ?_⟩
      · rw [unregisterEncoder_str_eq]
        have : ({ r1 with
            decoderCache := [],
            decoders := (r1.decoders.add ⟨r1.nextAlloc, .equals s⟩ dec (some s)).2,
            nextAlloc := r1.nextAlloc + 1 } : ABIRegistry).encoders = r1.encoders := rfl
        rw [this, hr1]
        simp [hremE1, Except.mapError]
      · rw [unregisterEncoder_str_eq]
        have : ({ r1 with
            decoderCache := [],
            decoders := (r1.decoders.add ⟨r1.nextAlloc, .equals s⟩ dec (some s)).2,
            nextAlloc := r1.nextAlloc + 1 } : ABIRegistry).encoders = r1.encoders := rfl
        rw [this, hr1]
        simpa using hremE2
      · rw [unregisterDecoder_str_eq]
        have : ({ r1 with
            decoderCache := [],
            decoders := (r1.decoders.add ⟨r1.nextAlloc, .equals s⟩ dec (some s)).2,
            nextAlloc := r1.nextAlloc + 1 } : ABIRegistry).decoders =
          (r1.decoders.add ⟨r1.nextAlloc, .equals s⟩ dec (some s)).2 := rfl
        rw [this, hr1dec]
        simp [hremD1, Except.mapError]
      · rw [unregisterDecoder_str_eq]
        have : ({ r1 with
            decoderCache := [],
            decoders := (r1.decoders.add ⟨r1.nextAlloc, .equals s⟩ dec (some s)).2,
            nextAlloc := r1.nextAlloc + 1 } : ABIRegistry).decoders =
          (r1.decoders.add ⟨r1.nextAlloc, .equals s⟩ dec (some s)).2 := rfl
        rw [this, hr1dec]
        simpa using hremD2

/-- An empty registry. -/
def rEmpty : ABIRegistry :=
  { encoders := ⟨"encoder registry", [], []⟩,
    decoders := ⟨"decoder registry", [], []⟩,
    encoderCache := [], decoderCache := [], nextAlloc := 0 }

/-- Witness for `register_string_roundtrip`: on the empty registry,
registering `uint256` and then unregistering it by the same string
restores the encoder mapping. -/
theorem register_string_roundtrip_witness :
    ("uint256", (⟨0, PredData.equals "uint256"⟩ : Pred)) ∈
        (rEmpty.registerEncoder (.str "uint256") (.direct 4) none).2.encoders.labeledPredicates ∧
    ((rEmpty.registerEncoder (.str "uint256") (.direct 4) none).2.unregisterEncoder
        (.str "uint256")).1 = .ok () ∧
    ((rEmpty.registerEncoder (.str "uint256") (.direct 4) none).2.unregisterEncoder
        (.str "uint256")).2.encoders = rEmpty.encoders := by
  obtain ⟨h1, h2, h3, h4⟩ := (register_string_roundtrip rEmpty "uint256"
    (.direct 4) (.direct 4)).1 rfl
  exact ⟨h1, h2, h3⟩

/-- C10: with a plain string lookup `s`, `register_encoder` and
`register_decoder` ignore the explicit `label` argument entirely — the
resulting registry state is identical for every value of `label` — and on
success the stored entry is labeled with the lookup string `s` itself,
bound to the freshly created `Equals s` predicate object. -/
theorem register_string_ignores_label (r : ABIRegistry) (s : String)
    (coder : CoderVal) (label : Option String) :
    r.registerEncoder (.str s) coder label = r.registerEncoder (.str s) coder none ∧
    r.registerDecoder (.str s) coder label = r.registerDecoder (.str s) coder none ∧
    ((r.registerEncoder (.str s) coder label).1 = .ok () →
      (s, (⟨r.nextAlloc, .equals s⟩ : Pred)) ∈
        (r.registerEncoder (.str s) coder label).2.encoders.labeledPredicates) ∧
    ((r.registerDecoder (.str s) coder label).1 = .ok () →
      (s, (⟨r.nextAlloc, .equals s⟩ : Pred)) ∈
        (r.registerDecoder (.str s) coder label).2.decoders.labeledPredicates) := by
  refine ⟨rfl, rfl, ?_, ?_⟩
  · intro h
    obtain ⟨hadd, hstate⟩ := registerEncoder_str_ok r s coder label h
    rw [hstate]
    show (s, (⟨r.nextAlloc, .equals s⟩ : Pred)) ∈
      ((r.encoders.add ⟨r.nextAlloc, .equals s⟩ coder (some s)).2).labeledPredicates
    rw [add_ok_state _ _ _ _ hadd]
    simp
  · intro h
    obtain ⟨hadd, hstate⟩ := registerDecoder_str_ok r s coder label h
    rw [hstate]
    show (s, (⟨r.nextAlloc, .equals s⟩ : Pred)) ∈
      ((r.decoders.add ⟨r.nextAlloc, .equals s⟩ coder (some s)).2).labeledPredicates
    rw [add_ok_state _ _ _ _ hadd]
    simp

/-- Witness for `register_string_ignores_label`: on the empty registry the
states for `label = some "whatever"` and `label = none` coincide and the
entry is labeled by the lookup string. -/
theorem register_string_ignores_label_witness :
    rEmpty.registerEncoder (.str "bool") (.direct 2) (some "whatever") =
      rEmpty.registerEncoder (.str "bool") (.direct 2) none ∧
    ("bool", (⟨0, PredData.equals "bool"⟩ : Pred)) ∈
      (rEmpty.registerEncoder (.str "bool") (.direct 2) (some "whatever")).2.encoders.labeledPredicates :=
  ⟨(register_string_ignores_label rEmpty "bool" (.direct 2) (some "whatever")).1,
   (register_string_ignores_label rEmpty "bool" (.direct 2) (some "whatever")).2.2.1 rfl⟩

end EthAbi
